import Mathlib

set_option linter.unusedVariables false

/-!
Verification development for the Argus route-comparison pipeline.

The Python sources are shallowly embedded: pure data flow becomes Lean
functions, float arithmetic is modelled by rationals, HTTP traffic is an
explicit `Fetch` argument (the parsed response body or a raised transport
failure), and the mutation of the caller routing-options dict by `pop` is
modelled by returning the post-call state of that dict.
-/

namespace Argus

/-- Geographic coordinate as (longitude, latitude); the float values of the
program are modelled by rationals. -/
abbrev Coord : Type := ℚ × ℚ

/-- A route geometry: the ordered vertex list of a shapely LineString. -/
abbrev Route : Type := List Coord

/-- The details record built by every adapter: distance in meters, duration in
seconds, and the list of human readable instructions. -/
structure RouteDetails where
  distance : ℚ
  duration : ℚ
  instructions : List String
deriving DecidableEq

/-- A Python dict of routing options, as an association list. Keys are unique
in the program; lookup returns the first binding. -/
abbrev Opts : Type := List (String × String)

/-- State change of `routing_options.pop("strategy", ...)`: every binding of
the key is removed from the dict. -/
def eraseOpt (k : String) (o : Opts) : Opts :=
  o.filter (fun kv => kv.1 ≠ k)

/-- Value returned by `routing_options.pop("strategy", dflt)`. -/
def popStrategyValue (dflt : String) (o : Opts) : String :=
  (o.lookup "strategy").getD dflt

/-- Model of Python `list(dict.fromkeys(xs))`: keep the first occurrence of
every element, drop later duplicates, preserve order. The argument `seen`
holds the keys already inserted into the dict. -/
def dedupAux {α : Type} [DecidableEq α] (seen : List α) : List α → List α
  | [] => []
  | x :: xs => if x ∈ seen then dedupAux seen xs else x :: dedupAux (x :: seen) xs

/-- `list(dict.fromkeys(xs))`, the duplicate-removal idiom of the adapters. -/
def dedupKeepFirst {α : Type} [DecidableEq α] (l : List α) : List α :=
  dedupAux [] l

/-- Model of Python `min(x :: xs, key=f)`: the first element attaining the
minimum key (the running minimum is replaced only on a strictly smaller key). -/
def pyMinBy {α β : Type} [LinearOrder β] (f : α → β) (x : α) (xs : List α) : α :=
  xs.foldl (fun acc y => if f y < f acc then y else acc) x

/-- Model of Python `str.title()`: the first letter of every alphabetic run is
upper-cased and the following letters lower-cased. -/
def pyTitleAux : Bool → List Char → List Char
  | _, [] => []
  | prevAlpha, c :: cs =>
      (if c.isAlpha then (if prevAlpha then c.toLower else c.toUpper) else c)
        :: pyTitleAux c.isAlpha cs

/-- Python `str.title()`. -/
def pyTitle (s : String) : String :=
  ⟨pyTitleAux false s.data⟩

/-- Model of the tag-stripping regex substitution used on Google HTML
instructions, on well-formed tag text: every angle-bracketed tag is replaced
by one space. The Bool argument tracks whether the scan is inside a tag. -/
def stripTagsAux : Bool → List Char → List Char
  | _, [] => []
  | true, c :: cs =>
      if c = '>' then ' ' :: stripTagsAux false cs else stripTagsAux true cs
  | false, c :: cs =>
      if c = '<' then stripTagsAux true cs else c :: stripTagsAux false cs

/-- Tag stripping for one Google HTML instruction. -/
def stripTags (s : String) : String :=
  ⟨stripTagsAux false s.data⟩

/-- Outcome of one HTTP request as seen from inside an adapter: either a
raised transport or non-success-status failure (requests raises, the adapter
catches RequestException), or a successfully parsed response body. -/
inductive Fetch (β : Type) where
  | failure : Fetch β
  | success (body : β) : Fetch β

/-- A Python return value: either a bare `None` produced by a function that
falls off its end without an explicit return, or an actually returned value. -/
inductive PyRet (α : Type) where
  | bareNone : PyRet α
  | val (a : α) : PyRet α

/-- Caller-side tuple unpacking `a, b = ret`: unpacking a bare None raises a
TypeError in Python. -/
def unpackPair {α β : Type} : PyRet (α × β) → Except String (α × β)
  | .bareNone => .error "TypeError: cannot unpack non-iterable NoneType object"
  | .val p => .ok p

/-- What every route adapter hands back: a pair of optional geometry and
optional details, or a bare None. -/
abbrev AdapterRet : Type := PyRet (Option Route × Option RouteDetails)

/-- One OSRM step: maneuver type, maneuver modifier and street name (empty
string when the field is missing, matching the dict.get defaults). -/
structure OsrmStep where
  maneuverType : String
  modifier : String
  name : String
deriving DecidableEq

/-- One OSRM route: decoded overview polyline as (lat, lon) vertices, distance
in meters, duration in seconds, and the step list of each leg. -/
structure OsrmRoute where
  geometry : List Coord
  distance : ℚ
  duration : ℚ
  legs : List (List OsrmStep)
deriving DecidableEq

/-- Parsed OSRM response body; a missing or empty routes member is modelled as
the empty list. -/
structure OsrmResponse where
  routes : List OsrmRoute
deriving DecidableEq

/-- The human-readable instruction string built for one OSRM step. -/
def osmStepInstruction (step : OsrmStep) : String :=
  if step.maneuverType = "depart" then
    "Head on " ++ step.name
  else
    (pyTitle (step.maneuverType.replace "_" " ") ++ " " ++ step.modifier
      ++ " onto " ++ step.name).trim

/-- The raw instruction list of an OSRM route: legs, then steps, in order. -/
def osmRawInstructions (route : OsrmRoute) : List String :=
  route.legs.flatMap (fun steps => steps.map osmStepInstruction)

/-- Result of one `get_osm_route` call: the query parameters sent, the Python
return value, and the state the caller routing-options dict is left in. -/
structure OsrmCall where
  sent : List (String × String)
  ret : AdapterRet
  optsAfter : Opts

/-- Model of `get_osm_route` (osm_routing.py). The strategy key is popped from
the caller dict, the remaining options are merged into the query parameters,
and the first returned route is decoded. On a transport failure the except
branch returns the pair (None, None); when the response holds no route the
function falls off its end and returns a bare None. -/
def get_osm_route (origin destination : Coord) (routing_options : Opts)
    (resp : Fetch OsrmResponse) : OsrmCall :=
  let opts' := eraseOpt "strategy" routing_options
  let params := [("overview", "full"), ("geometries", "polyline"),
    ("steps", "true"), ("annotations", "true")] ++ opts'
  match resp with
  | .failure => ⟨params, .val (none, none), opts'⟩
  | .success data =>
      match data.routes with
      | [] => ⟨params, .bareNone, opts'⟩
      | route :: _ =>
          let line : Route := route.geometry.map (fun p => (p.2, p.1))
          ⟨params,
            .val (some line,
              some ⟨route.distance, route.duration,
                dedupKeepFirst (osmRawInstructions route)⟩),
            opts'⟩

/-- One GraphHopper path: decoded points as (lat, lon), distance in meters,
time in milliseconds, and the instruction texts. -/
structure GhPath where
  points : List Coord
  distance : ℚ
  time : ℚ
  instructions : List String
deriving DecidableEq

/-- Parsed GraphHopper response body. -/
structure GhResponse where
  paths : List GhPath
deriving DecidableEq

/-- Result of one `get_graphhopper_route` call. -/
structure GhCall where
  sent : List (String × String)
  ret : AdapterRet
  optsAfter : Opts

/-- The "lat,lon" formatting of a point query parameter. -/
def latLonParam (p : Coord) : String :=
  toString p.2 ++ "," ++ toString p.1

/-- Model of `get_graphhopper_route` (osm_routing.py). A missing API key
returns (None, None) before the options dict is touched. Otherwise the
strategy is popped from the caller dict and mapped to the native weighting
query parameter; no-route and transport-failure paths both return the pair
(None, None); instruction texts are taken raw, with no deduplication. -/
def get_graphhopper_route (origin destination : Coord) (routing_options : Opts)
    (apiKey : Option String) (resp : Fetch GhResponse) : GhCall :=
  match apiKey with
  | none => ⟨[], .val (none, none), routing_options⟩
  | some key =>
      let strategy := popStrategyValue "fastest" routing_options
      let opts' := eraseOpt "strategy" routing_options
      let weighting := if strategy = "fastest" then "fastest" else "shortest"
      let params := [("vehicle", "car"), ("instructions", "true"),
          ("points_encoded", "true"), ("key", key), ("weighting", weighting)]
        ++ opts'
        ++ [("point", latLonParam origin), ("point", latLonParam destination)]
      match resp with
      | .failure => ⟨params, .val (none, none), opts'⟩
      | .success data =>
          match data.paths with
          | [] => ⟨params, .val (none, none), opts'⟩
          | path :: _ =>
              let line : Route := path.points.map (fun p => (p.2, p.1))
              ⟨params,
                .val (some line,
                  some ⟨path.distance, path.time / 1000, path.instructions⟩),
                opts'⟩

/-- One Google step, carrying its HTML instruction text. -/
structure GStep where
  htmlInstructions : String
deriving DecidableEq

/-- One Google leg: distance value in meters, duration value in seconds, and
the steps. -/
structure GLeg where
  distance : ℚ
  duration : ℚ
  steps : List GStep
deriving DecidableEq

/-- One Google route alternative: decoded overview polyline as (lat, lon)
points and the legs. -/
structure GRoute where
  overviewPolyline : List Coord
  legs : List GLeg
deriving DecidableEq

/-- Placeholder leg; the code indexes legs[0], which is always present in a
well-formed Directions response. -/
def defaultGLeg : GLeg := ⟨0, 0, []⟩

/-- Selection key of the shortest strategy: the distance value of the first
leg of a route alternative. -/
def googleDistanceKey (r : GRoute) : ℚ := (r.legs.headD defaultGLeg).distance

/-- Selection key of the fastest strategy: the duration value of the first
leg of a route alternative. -/
def googleDurationKey (r : GRoute) : ℚ := (r.legs.headD defaultGLeg).duration

/-- Raw Google instruction list: each step HTML instruction stripped of tags
and trimmed, empty strings dropped. -/
def googleRawInstructions (r : GRoute) : List String :=
  ((r.legs.headD defaultGLeg).steps.map
    (fun s => (stripTags s.htmlInstructions).trim)).filter (fun t => t ≠ "")

/-- The route geometry and details built from the selected Google route. -/
def googleBuild (best : GRoute) : Option Route × Option RouteDetails :=
  let line : Route := best.overviewPolyline.map (fun p => (p.2, p.1))
  let leg := best.legs.headD defaultGLeg
  (some line,
    some ⟨leg.distance, leg.duration, dedupKeepFirst (googleRawInstructions best)⟩)

/-- Result of one `get_google_route` call. -/
structure GoogleCall where
  ret : AdapterRet
  optsAfter : Opts

/-- Model of `get_google_route` (google_routing.py). The strategy is popped
from the caller dict before the request; the adapter asks for alternatives,
then selects the minimum-distance alternative for the shortest strategy and
the minimum-duration one otherwise. Empty result and every exception path
return the pair (None, None). -/
def get_google_route (origin destination : Coord) (routing_options : Opts)
    (resp : Fetch (List GRoute)) : GoogleCall :=
  let strategy := popStrategyValue "fastest" routing_options
  let opts' := eraseOpt "strategy" routing_options
  match resp with
  | .failure => ⟨.val (none, none), opts'⟩
  | .success [] => ⟨.val (none, none), opts'⟩
  | .success (r :: rs) =>
      let best :=
        if strategy = "shortest" then pyMinBy googleDistanceKey r rs
        else pyMinBy googleDurationKey r rs
      ⟨.val (googleBuild best), opts'⟩

/-- One HERE section: decoded polyline as (lat, lon), summary length and
duration, and the instruction texts of its actions (empty string when the
instruction field is missing). -/
structure HereSection where
  polyline : List Coord
  length : ℚ
  duration : ℚ
  actions : List String
deriving DecidableEq

/-- One HERE route, a list of sections. -/
structure HereRoute where
  sections : List HereSection
deriving DecidableEq

/-- Raw HERE instruction list: the actions of every section in order, empty
instruction texts dropped by the truthiness test. -/
def hereRawInstructions (route : HereRoute) : List String :=
  (route.sections.flatMap (fun s => s.actions)).filter (fun t => t ≠ "")

/-- Result of one `get_here_route` call. -/
structure HereCall where
  ret : AdapterRet
  optsAfter : Opts

/-- Model of `get_here_route` (here_routing.py). The caller options are merged
into the query parameters without mutation. A missing API key and a transport
failure return the pair (None, None); when the response body holds no route
the function falls off its end and returns a bare None. -/
def get_here_route (origin destination : Coord) (routing_options : Opts)
    (apiKey : Option String) (resp : Fetch (List HereRoute)) : HereCall :=
  match apiKey with
  | none => ⟨.val (none, none), routing_options⟩
  | some _ =>
      match resp with
      | .failure => ⟨.val (none, none), routing_options⟩
      | .success [] => ⟨.bareNone, routing_options⟩
      | .success (route :: _) =>
          let fullPolyline := route.sections.flatMap (fun s => s.polyline)
          let totalLength := (route.sections.map (fun s => s.length)).sum
          let totalDuration := (route.sections.map (fun s => s.duration)).sum
          let line : Route := fullPolyline.map (fun p => (p.2, p.1))
          ⟨.val (some line,
            some ⟨totalLength, totalDuration,
              dedupKeepFirst (hereRawInstructions route)⟩),
            routing_options⟩

/-- Model of `snap_to_road_here` (here_routing.py): the response body is the
optional snapped position of the first reverse-geocode item; a missing API
key, a transport failure and a body without a position all yield the original
point. -/
def snap_to_road_here (point : Coord) (apiKey : Option String)
    (resp : Fetch (Option Coord)) : Coord :=
  match apiKey with
  | none => point
  | some _ =>
      match resp with
      | .failure => point
      | .success none => point
      | .success (some pos) => pos

/-- Modelled from the spec: `snap_to_road_osrm` is imported by the batch pair
generator from the open-data routing module, but its definition is not among
the provided sources (only the import and the call sites are). Per the spec,
snap delegates to a provider nearest-road lookup and, on provider failure,
returns the original point unchanged, never failing the caller. -/
def snap_to_road_osrm (point : Coord) (resp : Fetch (Option Coord)) : Coord :=
  match resp with
  | .failure => point
  | .success none => point
  | .success (some pos) => pos

/-- Buffer size in meters for the overlap calculation (BUFFER_METERS in
data_processing.py). -/
def BUFFER_METERS : ℚ := 30

/-- The planar geometric kernel: the geopandas and shapely operations that
calculate_coverage delegates to. lengthOf is the planar length of a geometry,
buffer the buffered polygon of a dissolved geometry, to_crs the projection of
a geographic geometry into the planar CRS (together with the union_all
dissolve), and intersection the geometric intersection. The coverage code is
defined over this interface exactly as it calls the libraries. -/
structure GeoKernel where
  Geometry : Type
  lengthOf : Geometry → ℚ
  buffer : Geometry → ℚ → Geometry
  to_crs : Geometry → Geometry
  intersection : Geometry → Geometry → Geometry

/-- Model of `calculate_coverage` (data_processing.py): a falsy candidate
yields 0; a zero planar reference length yields 0; otherwise the reference is
buffered, the candidate projected, and the result is the length of their
intersection divided by the reference length, times 100. No clamping is
applied. -/
def calculate_coverage (K : GeoKernel) (base_route_gdf_proj : K.Geometry)
    (other_route : Option K.Geometry) (buffer_size : ℚ) : ℚ :=
  match other_route with
  | none => 0
  | some other =>
      let base_length := K.lengthOf base_route_gdf_proj
      if base_length = 0 then 0
      else
        let base_buffered := K.buffer base_route_gdf_proj buffer_size
        let other_gdf_proj := K.to_crs other
        let intersection_length :=
          K.lengthOf (K.intersection base_buffered other_gdf_proj)
        intersection_length / base_length * 100

/-- Exact restriction of the planar geometric kernel to geometries lying on
the x axis, each written as the pair (left endpoint, right endpoint) of an
interval of x coordinates. For such collinear LineStrings the shapely
operations reduce to interval arithmetic: planar length is the absolute
endpoint difference; the buffered polygon of radius r meets the axis exactly
in the interval widened by r on each side (the round end caps extend r past
the endpoints); intersection is interval intersection, a degenerate point
interval when the intervals are disjoint; projection is the identity since
the coordinates are already planar. -/
def segKernel : GeoKernel where
  Geometry := ℚ × ℚ
  lengthOf g := if g.1 ≤ g.2 then g.2 - g.1 else g.1 - g.2
  buffer g r := (g.1 - r, g.2 + r)
  to_crs g := g
  intersection g h :=
    let lo := if g.1 ≤ h.1 then h.1 else g.1
    let hi := if g.2 ≤ h.2 then g.2 else h.2
    if hi < lo then (lo, lo) else (lo, hi)

/-- Unfolding lemma for the collinear planar length. -/
theorem segKernel_lengthOf (g : ℚ × ℚ) :
    segKernel.lengthOf g = if g.1 ≤ g.2 then g.2 - g.1 else g.1 - g.2 := rfl

/-- Unfolding lemma for the collinear buffer. -/
theorem segKernel_buffer (g : ℚ × ℚ) (r : ℚ) :
    segKernel.buffer g r = (g.1 - r, g.2 + r) := rfl

/-- Unfolding lemma for the collinear projection. -/
theorem segKernel_to_crs (g : ℚ × ℚ) : segKernel.to_crs g = g := rfl

/-- Unfolding lemma for the collinear intersection. -/
theorem segKernel_intersection (g h : ℚ × ℚ) :
    segKernel.intersection g h =
      (if (if g.2 ≤ h.2 then g.2 else h.2) < (if g.1 ≤ h.1 then h.1 else g.1)
        then ((if g.1 ≤ h.1 then h.1 else g.1), (if g.1 ≤ h.1 then h.1 else g.1))
        else ((if g.1 ≤ h.1 then h.1 else g.1), (if g.2 ≤ h.2 then g.2 else h.2))) := rfl

/-- The planar length of a collinear geometry is nonnegative. -/
theorem segKernel_lengthOf_nonneg (g : ℚ × ℚ) : 0 ≤ segKernel.lengthOf g := by
  rw [segKernel_lengthOf]
  split <;> linarith

/-- The adapter results of one OD pair as consumed by the batch loop body,
with the geometry type abstracted over the kernel. -/
structure PairResult (G : Type) where
  origin : Coord
  destination : Coord
  google_route : Option G
  google_details : Option RouteDetails
  here_route : Option G
  here_details : Option RouteDetails
  osm_route : Option G
  osm_details : Option RouteDetails

/-- One feature appended to a provider route collection: geometry, route_id,
and the detail fields pulled out of the details record (the instruction list
is serialized to a string by json.dumps; the list itself is modelled). -/
structure RouteFeature (G : Type) where
  geometry : G
  route_id : ℕ
  distance : Option ℚ
  duration : Option ℚ
  instructions : List String

/-- One origin or destination point feature. -/
structure ODPoint where
  geometry : Coord
  pair_id : ℕ
  ptype : String

/-- One stats entry as built per pair when the Google route exists. The two
coverage percentages are kept as numbers; the code formats them into percent
strings for presentation. -/
structure CoverageStat where
  here_coverage : ℚ
  osm_coverage : ℚ
  google_details : Option RouteDetails
  here_details : Option RouteDetails
  osm_details : Option RouteDetails

/-- The stats entry computed for one pair whose Google route g exists: the
Google geometry is projected, and each candidate scored against it with the
fixed buffer. -/
def mkStat (K : GeoKernel) (g : K.Geometry) (p : PairResult K.Geometry) :
    CoverageStat :=
  let google_gdf_proj := K.to_crs g
  { here_coverage := calculate_coverage K google_gdf_proj p.here_route BUFFER_METERS
    osm_coverage := calculate_coverage K google_gdf_proj p.osm_route BUFFER_METERS
    google_details := p.google_details
    here_details := p.here_details
    osm_details := p.osm_details }

/-- The route feature appended for one provider slot of pair i, if the route
exists. -/
def featureOf {G : Type} (i : ℕ) (route : Option G) (details : Option RouteDetails) :
    List (RouteFeature G) :=
  match route with
  | none => []
  | some g =>
      [⟨g, i, details.map (fun d => d.distance), details.map (fun d => d.duration),
        (details.map (fun d => d.instructions)).getD []⟩]

/-- Accumulated outputs of the batch loop of process_routes. -/
structure BatchOutput (G : Type) where
  google_routes : List (RouteFeature G)
  here_routes : List (RouteFeature G)
  osm_routes : List (RouteFeature G)
  od_points : List ODPoint
  stats : List (ℕ × CoverageStat)

/-- The loop body of `process_routes` (data_processing.py) over the per-pair
adapter results, with i the pair index of the first remaining pair: origin and
destination points are appended, each present route becomes a feature tagged
route_id i, and a stats entry keyed i is appended exactly when the Google
route exists. -/
def process_routes_loop (K : GeoKernel) :
    ℕ → List (PairResult K.Geometry) → BatchOutput K.Geometry
  | _, [] => ⟨[], [], [], [], []⟩
  | i, p :: ps =>
      let rest := process_routes_loop K (i + 1) ps
      let od : List ODPoint :=
        [⟨p.origin, i, "origin"⟩, ⟨p.destination, i, "destination"⟩]
      let st : List (ℕ × CoverageStat) :=
        match p.google_route with
        | some g => [(i, mkStat K g p)]
        | none => []
      ⟨featureOf i p.google_route p.google_details ++ rest.google_routes,
        featureOf i p.here_route p.here_details ++ rest.here_routes,
        featureOf i p.osm_route p.osm_details ++ rest.osm_routes,
        od ++ rest.od_points,
        st ++ rest.stats⟩

/-- The pure core of `process_routes`: the batch loop started at pair index 0. -/
def process_routes_core (K : GeoKernel) (pairs : List (PairResult K.Geometry)) :
    BatchOutput K.Geometry :=
  process_routes_loop K 0 pairs

/-- The pure core of `calculate_single_route_comparison` (data_processing.py):
one pair processed at index 0, producing at most one feature per provider and
a stats mapping that holds key 0 exactly when the Google route exists. -/
def calculate_single_route_comparison_core (K : GeoKernel)
    (p : PairResult K.Geometry) : BatchOutput K.Geometry :=
  { google_routes := featureOf 0 p.google_route p.google_details
    here_routes := featureOf 0 p.here_route p.here_details
    osm_routes := featureOf 0 p.osm_route p.osm_details
    od_points := []
    stats :=
      match p.google_route with
      | some g => [(0, mkStat K g p)]
      | none => [] }

/-- One observable item of a batch run: a progress record printed to stdout
(shape {type: "progress", progress, message}), the pair-generation step, or
the fetch step of pair i. -/
inductive BatchEvent where
  | progress (pct : ℕ) (message : String) : BatchEvent
  | generatePairs : BatchEvent
  | fetchPair (i : ℕ) : BatchEvent
deriving DecidableEq

/-- Model of `log_progress` (data_processing.py): the emitted record carries
int((current / total) * 100), which on the small exact ratios involved is
floor division, and the human-readable message. -/
def log_progress (current total : ℕ) (message : String) : BatchEvent :=
  .progress (current * 100 / total) message

/-- The trace block of one loop iteration of process_routes: the progress
record logged at step i + 2, then the fetch of pair i. -/
def fetchBlock (total i : ℕ) : List BatchEvent :=
  [log_progress (i + 2) total ("Fetching route " ++ toString (i + 1) ++ "..."),
    .fetchPair i]

/-- The ordered event trace of `process_routes` for a batch of numRoutes
pairs: the initial progress record at step 0, the generating-pairs record at
step 1, the pair generation itself, then per pair the fetching record and the
fetch, and finally the saving record at step total, with total fixed at
numRoutes + 2 steps. -/
def process_routes_trace (numRoutes : ℕ) : List BatchEvent :=
  let total := numRoutes + 2
  [log_progress 0 total "Initializing...",
    log_progress 1 total "Generating random origin/destination pairs...",
    .generatePairs]
  ++ (List.range numRoutes).flatMap (fetchBlock total)
  ++ [log_progress total total "Saving results..."]

/-- The progress percentage carried by a progress event. -/
def progressOf : BatchEvent → Option ℕ
  | .progress p _ => some p
  | _ => none

/-- Whether an event is a progress record. -/
def isProgress : BatchEvent → Bool
  | .progress _ _ => true
  | _ => false

/-- Holds when every pair-generation and fetch item of a trace is immediately
followed by a progress record (so a progress event is emitted after pair
generation and after each fetch step), and no such item ends the trace. -/
def progressFollows : List BatchEvent → Bool
  | [] => true
  | [e] => isProgress e
  | e :: e' :: rest =>
      (match e with
       | .generatePairs => isProgress e'
       | .fetchPair _ => isProgress e'
       | .progress _ _ => true)
      && progressFollows (e' :: rest)

/-- Whether a trace starts with a progress record. -/
def headIsProgress : List BatchEvent → Bool
  | [] => false
  | e :: _ => isProgress e

/-- Model of numpy `np.random.uniform(low, high)`: low + (high - low) * u
with u drawn uniformly from the unit interval [0, 1). -/
def uniformDraw (low high u : ℚ) : ℚ := low + (high - low) * u

/-- Model of `generate_random_points_in_bbox` (data_processing.py): the bbox
is unpacked as (min_lon, min_lat, max_lon, max_lat), num_points longitudes
and latitudes are drawn uniformly, and the two arrays are zipped into
(lon, lat) pairs. The draws are supplied as the unit-interval streams us and
vs. -/
def generate_random_points_in_bbox (bbox : ℚ × ℚ × ℚ × ℚ) (num_points : ℕ)
    (us vs : ℕ → ℚ) : List Coord :=
  let min_lon := bbox.1
  let min_lat := bbox.2.1
  let max_lon := bbox.2.2.1
  let max_lat := bbox.2.2.2
  (List.range num_points).map
    (fun k => (uniformDraw min_lon max_lon (us k), uniformDraw min_lat max_lat (vs k)))

/-- The instruction list inside an adapter return value, when present. -/
def retInstructions : AdapterRet → Option (List String)
  | .val (_, some d) => some d.instructions
  | _ => none

/-! Helper lemmas about the embedded primitives. -/

theorem mem_dedupAux {α : Type} [DecidableEq α] (l : List α) :
    ∀ (seen : List α) (a : α), a ∈ dedupAux seen l ↔ a ∈ l ∧ a ∉ seen := by
  induction l with
  | nil => intro seen a; simp [dedupAux]
  | cons x xs ih =>
      intro seen a
      by_cases hx : x ∈ seen
      · rw [dedupAux, if_pos hx, ih]
        constructor
        · exact fun h => ⟨List.mem_cons_of_mem x h.1, h.2⟩
        · rintro ⟨h, hs⟩
          rcases List.mem_cons.mp h with rfl | h
          · exact absurd hx hs
          · exact ⟨h, hs⟩
      · rw [dedupAux, if_neg hx]
        by_cases hax : a = x
        · subst hax
          simp [hx]
        · simp only [List.mem_cons, hax, false_or]
          rw [ih]
          simp only [List.mem_cons, hax, false_or]

theorem nodup_dedupAux {α : Type} [DecidableEq α] (l : List α) :
    ∀ seen : List α, (dedupAux seen l).Nodup := by
  induction l with
  | nil => intro seen; simp [dedupAux]
  | cons x xs ih =>
      intro seen
      by_cases hx : x ∈ seen
      · rw [dedupAux, if_pos hx]; exact ih seen
      · rw [dedupAux, if_neg hx]
        refine List.nodup_cons.mpr ⟨?_, ih (x :: seen)⟩
        intro hmem
        exact ((mem_dedupAux xs (x :: seen) x).mp hmem).2 (List.mem_cons_self x seen)

theorem sublist_dedupAux {α : Type} [DecidableEq α] (l : List α) :
    ∀ seen : List α, (dedupAux seen l).Sublist l := by
  induction l with
  | nil => intro seen; simp [dedupAux]
  | cons x xs ih =>
      intro seen
      by_cases hx : x ∈ seen
      · rw [dedupAux, if_pos hx]
        exact (ih seen).trans (List.sublist_cons_self x xs)
      · rw [dedupAux, if_neg hx]
        exact List.Sublist.cons₂ x (ih (x :: seen))

theorem pyMinBy_spec {α β : Type} [LinearOrder β] (f : α → β) :
    ∀ (xs : List α) (x : α),
      pyMinBy f x xs ∈ x :: xs ∧ ∀ y ∈ x :: xs, f (pyMinBy f x xs) ≤ f y := by
  intro xs
  induction xs with
  | nil =>
      intro x
      refine ⟨List.mem_cons_self x [], ?_⟩
      intro y hy
      rcases List.mem_cons.mp hy with rfl | h
      · exact le_refl _
      · exact absurd h (List.not_mem_nil y)
  | cons y ys ih =>
      intro x
      have hz : pyMinBy f x (y :: ys) = pyMinBy f (if f y < f x then y else x) ys := rfl
      set z := if f y < f x then y else x with hzdef
      obtain ⟨hmem, hmin⟩ := ih z
      have hzx : f z ≤ f x := by
        by_cases h : f y < f x
        · rw [hzdef, if_pos h]; exact le_of_lt h
        · rw [hzdef, if_neg h]
      have hzy : f z ≤ f y := by
        by_cases h : f y < f x
        · rw [hzdef, if_pos h]
        · rw [hzdef, if_neg h]; exact le_of_not_lt h
      have hzin : z = y ∨ z = x := by
        by_cases h : f y < f x
        · left; rw [hzdef, if_pos h]
        · right; rw [hzdef, if_neg h]
      constructor
      · rw [hz]
        rcases List.mem_cons.mp hmem with heq | hys
        · rcases hzin with hzy' | hzx'
          · rw [heq, hzy']
            exact List.mem_cons_of_mem x (List.mem_cons_self y ys)
          · rw [heq, hzx']
            exact List.mem_cons_self x (y :: ys)
        · exact List.mem_cons_of_mem x (List.mem_cons_of_mem y hys)
      · intro w hw
        have hle_z : f (pyMinBy f x (y :: ys)) ≤ f z := by
          rw [hz]; exact hmin z (List.mem_cons_self z ys)
        rcases List.mem_cons.mp hw with rfl | hw'
        · exact hle_z.trans hzx
        · rcases List.mem_cons.mp hw' with rfl | hw''
          · exact hle_z.trans hzy
          · rw [hz]; exact hmin w (List.mem_cons_of_mem z hw'')

/-- The query parameters sent by one GraphHopper call with an API key do not
depend on the response. -/
theorem gh_sent (o d : Coord) (opts : Opts) (key : String) (resp : Fetch GhResponse) :
    (get_graphhopper_route o d opts (some key) resp).sent =
      [("vehicle", "car"), ("instructions", "true"), ("points_encoded", "true"),
        ("key", key),
        ("weighting",
          if popStrategyValue "fastest" opts = "fastest" then "fastest" else "shortest")]
      ++ eraseOpt "strategy" opts
      ++ [("point", latLonParam o), ("point", latLonParam d)] := by
  cases resp with
  | failure => rfl
  | success data =>
      rcases data with ⟨paths⟩
      cases paths <;> rfl

/-- The query parameters sent by one OSRM call do not depend on the response. -/
theorem osm_sent (o d : Coord) (opts : Opts) (resp : Fetch OsrmResponse) :
    (get_osm_route o d opts resp).sent =
      [("overview", "full"), ("geometries", "polyline"), ("steps", "true"),
        ("annotations", "true")] ++ eraseOpt "strategy" opts := by
  cases resp with
  | failure => rfl
  | success data =>
      rcases data with ⟨routes⟩
      cases routes <;> rfl

/-- A key surviving eraseOpt is different from the erased key. -/
theorem ne_of_mem_eraseOpt {k a : String} {o : Opts}
    (h : a ∈ (eraseOpt k o).map Prod.fst) : a ≠ k := by
  rcases List.mem_map.mp h with ⟨kv, hkv, rfl⟩
  have := List.mem_filter.mp hkv
  simpa using this.2

/-- The stats accumulated by one loop step. -/
theorem stats_loop_cons (K : GeoKernel) (i : ℕ) (p : PairResult K.Geometry)
    (ps : List (PairResult K.Geometry)) :
    (process_routes_loop K i (p :: ps)).stats =
      (match p.google_route with
        | some g => [(i, mkStat K g p)]
        | none => []) ++ (process_routes_loop K (i + 1) ps).stats := rfl

/-- Keys of the stats mapping built by the batch loop started at index i:
key n is present exactly when pair j = n - i exists and its Google route is
present. -/
theorem stats_mem_loop (K : GeoKernel) :
    ∀ (ps : List (PairResult K.Geometry)) (i n : ℕ),
      (∃ s, (n, s) ∈ (process_routes_loop K i ps).stats) ↔
        ∃ j p, ps.get? j = some p ∧ n = i + j ∧ p.google_route.isSome := by
  intro ps
  induction ps with
  | nil =>
      intro i n
      simp [process_routes_loop]
  | cons p ps ih =>
      intro i n
      constructor
      · rintro ⟨s, hs⟩
        rw [stats_loop_cons] at hs
        rcases List.mem_append.mp hs with h | h
        · rcases hg : p.google_route with _ | g
          · rw [hg] at h
            simp at h
          · rw [hg] at h
            simp at h
            obtain ⟨hn, hsv⟩ := h
            exact ⟨0, p, by simp, by omega, by rw [hg]; rfl⟩
        · obtain ⟨j, p', hj, hn, hp⟩ := (ih (i + 1) n).mp ⟨s, h⟩
          exact ⟨j + 1, p', by simpa using hj, by omega, hp⟩
      · rintro ⟨j, p', hj, rfl, hp⟩
        cases j with
        | zero =>
            have hje : p = p' := by simpa using hj
            rcases hg : p.google_route with _ | g
            · rw [← hje, hg] at hp
              simp at hp
            · refine ⟨mkStat K g p, ?_⟩
              rw [stats_loop_cons]
              refine List.mem_append.mpr (Or.inl ?_)
              rw [hg]
              simp
        | succ j =>
            obtain ⟨s, hs⟩ := (ih (i + 1) (i + 1 + j)).mpr
              ⟨j, p', by simpa using hj, rfl, hp⟩
            refine ⟨s, ?_⟩
            rw [stats_loop_cons]
            refine List.mem_append.mpr (Or.inr ?_)
            have harith : i + (j + 1) = i + 1 + j := by omega
            rw [harith]
            exact hs

/-- The first n + 3 naturals, written as the step sequence of a batch of n
pairs: 0, 1, the fetch steps 2 .. n + 1, and the final step n + 2. -/
theorem range_add_three (n : ℕ) :
    List.range (n + 3) =
      0 :: 1 :: ((List.range n).map (fun i => i + 2) ++ [n + 2]) := by
  induction n with
  | zero => rfl
  | succ n ih =>
      have h3 : n + 1 + 3 = (n + 3) + 1 := by omega
      rw [h3, List.range_succ, ih, List.range_succ]
      simp [List.map_append]

/-- The progress percentages of the per-pair trace blocks. -/
theorem filterMap_fetchBlocks (total : ℕ) :
    ∀ l : List ℕ, (l.flatMap (fetchBlock total)).filterMap progressOf =
      l.map (fun i => (i + 2) * 100 / total) := by
  intro l
  induction l with
  | nil => rfl
  | cons i l ih =>
      rw [List.flatMap_cons, List.filterMap_append, ih]
      rfl

/-- The progress percentages of a batch trace, in order: the percentage of
each step k = 0 .. n + 2 over the fixed total n + 2. -/
theorem trace_pcts (n : ℕ) :
    (process_routes_trace n).filterMap progressOf =
      (List.range (n + 3)).map (fun k => k * 100 / (n + 2)) := by
  rw [range_add_three]
  simp only [process_routes_trace, List.filterMap_append, filterMap_fetchBlocks,
    List.map_cons, List.map_append, List.map_map]
  rfl

/-- Inside a trace tail made of fetch blocks closed by a progress record,
every fetch item is immediately followed by a progress record, and the tail
starts with a progress record. -/
theorem progressFollows_mid (total : ℕ) (final : BatchEvent)
    (hfinal : isProgress final = true) :
    ∀ l : List ℕ,
      progressFollows (l.flatMap (fetchBlock total) ++ [final]) = true ∧
        headIsProgress (l.flatMap (fetchBlock total) ++ [final]) = true := by
  intro l
  induction l with
  | nil =>
      refine ⟨?_, ?_⟩
      · simp [progressFollows, hfinal]
      · simp [headIsProgress, hfinal]
  | cons i l ih =>
      obtain ⟨ihf, ihh⟩ := ih
      rw [List.flatMap_cons]
      rcases hr : l.flatMap (fetchBlock total) ++ [final] with _ | ⟨r, rest⟩
      · simp at hr
      · rw [hr] at ihf ihh
        rw [List.append_assoc, hr]
        have hrprog : isProgress r = true := ihh
        refine ⟨?_, ?_⟩
        · show progressFollows
            (log_progress (i + 2) total ("Fetching route " ++ toString (i + 1) ++ "...")
              :: BatchEvent.fetchPair i :: r :: rest) = true
          simp only [progressFollows, log_progress, hrprog, Bool.true_and]
          exact ihf
        · rfl

/-! Claim theorems. -/

/-- C1: for every geometric kernel, every reference route of positive planar
length and every present candidate route, the coverage score equals 100 times
the planar length of the candidate intersection with the 30 meter buffered
polygon of the reference, divided by the reference planar length. -/
theorem coverage_formula (K : GeoKernel) (base : K.Geometry) (o : K.Geometry)
    (h : 0 < K.lengthOf base) :
    calculate_coverage K base (some o) BUFFER_METERS =
      100 * K.lengthOf (K.intersection (K.buffer base BUFFER_METERS) (K.to_crs o))
        / K.lengthOf base := by
  have hne : K.lengthOf base ≠ 0 := ne_of_gt h
  simp only [calculate_coverage]
  rw [if_neg hne]
  ring

/-- Witness for C1 at the collinear kernel: reference interval of length 10,
candidate interval of length 5 inside the corridor. -/
theorem coverage_formula_witness :
    (0 : ℚ) < segKernel.lengthOf (0, 10) ∧
      calculate_coverage segKernel (0, 10) (some (0, 5)) BUFFER_METERS =
        100 * segKernel.lengthOf
            (segKernel.intersection (segKernel.buffer (0, 10) BUFFER_METERS)
              (segKernel.to_crs (0, 5))) / segKernel.lengthOf (0, 10) :=
  ⟨by norm_num [segKernel_lengthOf],
    coverage_formula segKernel (0, 10) (0, 5) (by norm_num [segKernel_lengthOf])⟩

/-- C2 counterexample: the coverage operation is not bounded by 100. For the
collinear reference LineString from (0,0) to (10,0), planar length 10, and
the collinear candidate from (-29,0) to (39,0), planar length 68 and lying
entirely within 30 meters of the reference, the returned score is 680. -/
theorem coverage_can_exceed_100 :
    calculate_coverage segKernel (0, 10) (some (-29, 39)) BUFFER_METERS = 680 ∧
      ¬ calculate_coverage segKernel (0, 10) (some (-29, 39)) BUFFER_METERS ≤ 100 := by
  norm_num [calculate_coverage, BUFFER_METERS, segKernel_lengthOf, segKernel_buffer,
    segKernel_to_crs, segKernel_intersection]

/-- C2 amended: the coverage operation always returns a defined, nonnegative
number; it returns 0 whenever the candidate is absent and 0 whenever the
reference planar length is 0; but it is not bounded above by 100. -/
theorem coverage_nonneg_and_zero_cases (K : GeoKernel)
    (hlen : ∀ g, 0 ≤ K.lengthOf g) (base : K.Geometry)
    (other : Option K.Geometry) (buf : ℚ) :
    0 ≤ calculate_coverage K base other buf ∧
      calculate_coverage K base none buf = 0 ∧
      (K.lengthOf base = 0 → calculate_coverage K base other buf = 0) := by
  refine ⟨?_, rfl, ?_⟩
  · cases other with
    | none => simp [calculate_coverage]
    | some o =>
        by_cases h0 : K.lengthOf base = 0
        · simp [calculate_coverage, h0]
        · have hpos : 0 < K.lengthOf base :=
            lt_of_le_of_ne (hlen base) (Ne.symm h0)
          simp only [calculate_coverage]
          rw [if_neg h0]
          have hdiv :
              0 ≤ K.lengthOf (K.intersection (K.buffer base buf) (K.to_crs o))
                / K.lengthOf base :=
            div_nonneg (hlen _) (le_of_lt hpos)
          nlinarith
  · intro h0
    cases other with
    | none => rfl
    | some o => simp [calculate_coverage, h0]

/-- Witness for the amended C2 at the collinear kernel. -/
theorem coverage_nonneg_and_zero_cases_witness :
    0 ≤ calculate_coverage segKernel (0, 10) (some (0, 5)) BUFFER_METERS ∧
      calculate_coverage segKernel (0, 10) none BUFFER_METERS = 0 ∧
      (segKernel.lengthOf (0, 10) = 0 →
        calculate_coverage segKernel (0, 10) (some (0, 5)) BUFFER_METERS = 0) :=
  coverage_nonneg_and_zero_cases segKernel segKernel_lengthOf_nonneg (0, 10)
    (some (0, 5)) BUFFER_METERS

/-- C3 fails on the code: an OSRM or HERE success response whose body holds no
route makes the adapter fall off its end and hand back a bare None instead of
the pair (absent, absent), and the caller tuple unpacking of that bare None
raises a TypeError, so an empty result set does reach the core as a raised
failure. -/
theorem empty_result_yields_bare_none :
    (get_osm_route (0, 0) (1, 1) [] (.success ⟨[]⟩)).ret = PyRet.bareNone ∧
      (get_here_route (0, 0) (1, 1) [] (some "key") (.success [])).ret =
        PyRet.bareNone ∧
      unpackPair (get_osm_route (0, 0) (1, 1) [] (.success ⟨[]⟩)).ret =
        Except.error "TypeError: cannot unpack non-iterable NoneType object" ∧
      unpackPair (get_here_route (0, 0) (1, 1) [] (some "key") (.success [])).ret =
        Except.error "TypeError: cannot unpack non-iterable NoneType object" :=
  ⟨rfl, rfl, rfl, rfl⟩

/-- C9: both snap operations are total functions returning a coordinate, and
they return the original point unchanged on a provider failure, on a missing
credential, and on a response without a snapped position. -/
theorem snap_never_fails :
    (∀ (p : Coord) (key : Option String), snap_to_road_here p key .failure = p) ∧
      (∀ (p : Coord) (resp : Fetch (Option Coord)), snap_to_road_here p none resp = p) ∧
      (∀ (p : Coord) (key : Option String),
        snap_to_road_here p key (.success none) = p) ∧
      (∀ p : Coord, snap_to_road_osrm p .failure = p) ∧
      (∀ p : Coord, snap_to_road_osrm p (.success none) = p) := by
  refine ⟨?_, ?_, ?_, ?_, ?_⟩
  · intro p key; cases key <;> rfl
  · intro p resp; rfl
  · intro p key; cases key <;> rfl
  · intro p; rfl
  · intro p; rfl

/-- C10 fails on the code: the GraphHopper adapter pops the strategy key out
of the caller routing-options dict, so the record is changed by the call. -/
theorem adapter_mutates_options :
    (get_graphhopper_route (0, 0) (1, 1) [("strategy", "shortest")] (some "key")
        .failure).optsAfter = [] ∧
      [("strategy", "shortest")] ≠ ([] : Opts) :=
  ⟨rfl, List.cons_ne_nil _ _⟩

/-- C10 amended: the HERE adapter leaves the caller routing-options record
unchanged, but the Google, OSRM and GraphHopper adapters pop the strategy key
out of it; consequently a record built once with strategy "shortest" and
reused across a batch makes GraphHopper request the shortest weighting only
on the first call, and every later call falls back to "fastest". -/
theorem options_pop_semantics :
    (∀ (o d : Coord) (opts : Opts) (resp : Fetch OsrmResponse),
      (get_osm_route o d opts resp).optsAfter = eraseOpt "strategy" opts) ∧
    (∀ (o d : Coord) (opts : Opts) (resp : Fetch (List GRoute)),
      (get_google_route o d opts resp).optsAfter = eraseOpt "strategy" opts) ∧
    (∀ (o d : Coord) (opts : Opts) (key : String) (resp : Fetch GhResponse),
      (get_graphhopper_route o d opts (some key) resp).optsAfter =
        eraseOpt "strategy" opts) ∧
    (∀ (o d : Coord) (opts : Opts) (key : Option String)
        (resp : Fetch (List HereRoute)),
      (get_here_route o d opts key resp).optsAfter = opts) ∧
    (∀ (o d : Coord) (key : String) (resp1 resp2 : Fetch GhResponse),
      ("weighting", "shortest") ∈
          (get_graphhopper_route o d [("strategy", "shortest")] (some key)
            resp1).sent ∧
        ("weighting", "fastest") ∈
          (get_graphhopper_route o d
            ((get_graphhopper_route o d [("strategy", "shortest")] (some key)
              resp1).optsAfter) (some key) resp2).sent) := by
  have hosm : ∀ (o d : Coord) (opts : Opts) (resp : Fetch OsrmResponse),
      (get_osm_route o d opts resp).optsAfter = eraseOpt "strategy" opts := by
    intro o d opts resp
    cases resp with
    | failure => rfl
    | success data => rcases data with ⟨routes⟩; cases routes <;> rfl
  have hgh : ∀ (o d : Coord) (opts : Opts) (key : String) (resp : Fetch GhResponse),
      (get_graphhopper_route o d opts (some key) resp).optsAfter =
        eraseOpt "strategy" opts := by
    intro o d opts key resp
    cases resp with
    | failure => rfl
    | success data => rcases data with ⟨paths⟩; cases paths <;> rfl
  refine ⟨hosm, ?_, hgh, ?_, ?_⟩
  · intro o d opts resp
    cases resp with
    | failure => rfl
    | success rs => cases rs <;> rfl
  · intro o d opts key resp
    cases key with
    | none => rfl
    | some k =>
        cases resp with
        | failure => rfl
        | success rs => cases rs <;> rfl
  · intro o d key resp1 resp2
    constructor
    · rw [gh_sent]
      have : popStrategyValue "fastest" [("strategy", "shortest")] = "shortest" := rfl
      rw [this]
      simp
    · rw [hgh, gh_sent]
      have herase : eraseOpt "strategy" [("strategy", "shortest")] = [] := rfl
      rw [herase]
      have : popStrategyValue "fastest" ([] : Opts) = "fastest" := rfl
      rw [this]
      simp

/-- C4: under strategy "shortest", the Google adapter requests alternatives
and selects the minimum-distance one client-side; the GraphHopper adapter
remaps the strategy to its native shortest weighting parameter; the OSRM
adapter, which exposes no such choice, drops the strategy and sends no
strategy parameter at all, using its single native mode. -/
theorem shortest_strategy_selection :
    (∀ (o d : Coord) (opts : Opts) (r : GRoute) (rs : List GRoute),
      opts.lookup "strategy" = some "shortest" →
      ∃ best, best ∈ r :: rs ∧
        (get_google_route o d opts (.success (r :: rs))).ret =
          .val (googleBuild best) ∧
        ∀ x ∈ r :: rs, googleDistanceKey best ≤ googleDistanceKey x) ∧
    (∀ (o d : Coord) (opts : Opts) (key : String) (resp : Fetch GhResponse),
      opts.lookup "strategy" = some "shortest" →
      ("weighting", "shortest") ∈ (get_graphhopper_route o d opts (some key) resp).sent) ∧
    (∀ (o d : Coord) (opts : Opts) (resp : Fetch OsrmResponse),
      "strategy" ∉ ((get_osm_route o d opts resp).sent).map Prod.fst) := by
  refine ⟨?_, ?_, ?_⟩
  · intro o d opts r rs hstrat
    have hpop : popStrategyValue "fastest" opts = "shortest" := by
      rw [popStrategyValue, hstrat]; rfl
    refine ⟨pyMinBy googleDistanceKey r rs, (pyMinBy_spec googleDistanceKey rs r).1,
      ?_, (pyMinBy_spec googleDistanceKey rs r).2⟩
    show (get_google_route o d opts (.success (r :: rs))).ret = _
    simp only [get_google_route, hpop]
    rfl
  · intro o d opts key resp hstrat
    have hpop : popStrategyValue "fastest" opts = "shortest" := by
      rw [popStrategyValue, hstrat]; rfl
    rw [gh_sent, hpop]
    simp
  · intro o d opts resp hmem
    rw [osm_sent] at hmem
    rw [List.map_append, List.mem_append] at hmem
    rcases hmem with h | h
    · simp at h
    · exact ne_of_mem_eraseOpt h rfl

/-- Witness for C4: a two-alternative Google response with distances 5 and 3
selects the distance-3 alternative; a GraphHopper call with strategy
"shortest" sends the native shortest weighting; an OSRM call sends no
strategy parameter. -/
theorem shortest_strategy_selection_witness :
    (∃ best, best ∈ [GRoute.mk [] [⟨5, 7, []⟩], GRoute.mk [] [⟨3, 9, []⟩]] ∧
      (get_google_route (0, 0) (1, 1) [("strategy", "shortest")]
          (.success [GRoute.mk [] [⟨5, 7, []⟩], GRoute.mk [] [⟨3, 9, []⟩]])).ret =
        .val (googleBuild best) ∧
      ∀ x ∈ [GRoute.mk [] [⟨5, 7, []⟩], GRoute.mk [] [⟨3, 9, []⟩]],
        googleDistanceKey best ≤ googleDistanceKey x) ∧
    ("weighting", "shortest") ∈
      (get_graphhopper_route (0, 0) (1, 1) [("strategy", "shortest")] (some "key")
        .failure).sent ∧
    "strategy" ∉
      ((get_osm_route (0, 0) (1, 1) [("strategy", "shortest")] .failure).sent).map
        Prod.fst :=
  ⟨shortest_strategy_selection.1 (0, 0) (1, 1) [("strategy", "shortest")]
      (GRoute.mk [] [⟨5, 7, []⟩]) [GRoute.mk [] [⟨3, 9, []⟩]] rfl,
    shortest_strategy_selection.2.1 (0, 0) (1, 1) [("strategy", "shortest")] "key"
      .failure rfl,
    shortest_strategy_selection.2.2 (0, 0) (1, 1) [("strategy", "shortest")]
      .failure⟩

/-- C5 fails on the code: the GraphHopper adapter does not deduplicate its
instruction texts; raw instructions A B A C are returned unchanged rather
than as A B C. -/
theorem graphhopper_instructions_not_deduped :
    retInstructions (get_graphhopper_route (0, 0) (1, 1) [] (some "key")
        (.success ⟨[⟨[], 100, 1000, ["A", "B", "A", "C"]⟩]⟩)).ret =
      some ["A", "B", "A", "C"] ∧
      dedupKeepFirst ["A", "B", "A", "C"] = ["A", "B", "C"] ∧
      (["A", "B", "A", "C"] : List String) ≠ ["A", "B", "C"] := by
  refine ⟨rfl, rfl, ?_⟩
  decide

/-- C5 amended: the OSRM, HERE and Google adapters return instruction lists
with duplicates removed while preserving first-seen order (a duplicate-free
subsequence with the same members, and A B A C becomes A B C); the
GraphHopper adapter returns the raw instruction texts without deduplication. -/
theorem instruction_dedup_first_seen :
    dedupKeepFirst ["A", "B", "A", "C"] = ["A", "B", "C"] ∧
    (∀ l : List String, (dedupKeepFirst l).Nodup ∧ (dedupKeepFirst l).Sublist l ∧
      ∀ a : String, a ∈ dedupKeepFirst l ↔ a ∈ l) ∧
    (∀ (o d : Coord) (opts : Opts) (r : OsrmRoute) (rs : List OsrmRoute),
      retInstructions (get_osm_route o d opts (.success ⟨r :: rs⟩)).ret =
        some (dedupKeepFirst (osmRawInstructions r))) ∧
    (∀ (o d : Coord) (opts : Opts) (key : String) (r : HereRoute)
        (rs : List HereRoute),
      retInstructions (get_here_route o d opts (some key) (.success (r :: rs))).ret =
        some (dedupKeepFirst (hereRawInstructions r))) ∧
    (∀ (o d : Coord) (opts : Opts) (r : GRoute) (rs : List GRoute),
      ∃ best, best ∈ r :: rs ∧
        retInstructions (get_google_route o d opts (.success (r :: rs))).ret =
          some (dedupKeepFirst (googleRawInstructions best))) ∧
    (∀ (o d : Coord) (opts : Opts) (key : String) (p : GhPath) (ps : List GhPath),
      retInstructions (get_graphhopper_route o d opts (some key)
          (.success ⟨p :: ps⟩)).ret = some p.instructions) := by
  refine ⟨rfl, ?_, ?_, ?_, ?_, ?_⟩
  · intro l
    refine ⟨nodup_dedupAux l [], sublist_dedupAux l [], ?_⟩
    intro a
    rw [dedupKeepFirst, mem_dedupAux]
    simp
  · intro o d opts r rs; rfl
  · intro o d opts key r rs; rfl
  · intro o d opts r rs
    by_cases hpop : popStrategyValue "fastest" opts = "shortest"
    · refine ⟨pyMinBy googleDistanceKey r rs,
        (pyMinBy_spec googleDistanceKey rs r).1, ?_⟩
      simp only [get_google_route, hpop]
      rfl
    · refine ⟨pyMinBy googleDurationKey r rs,
        (pyMinBy_spec googleDurationKey rs r).1, ?_⟩
      simp only [get_google_route, if_neg hpop]
      rfl
  · intro o d opts key p ps; rfl

/-- C6: in both the batch run and the single-pair run, a stats entry keyed by
a pair id exists iff the reference (Google) route for that pair exists; a
pair whose reference route is absent contributes no entry at all. -/
theorem stats_iff_reference_route (K : GeoKernel) :
    (∀ (pairs : List (PairResult K.Geometry)) (n : ℕ),
      (∃ s, (n, s) ∈ (process_routes_core K pairs).stats) ↔
        ∃ p, pairs.get? n = some p ∧ p.google_route.isSome) ∧
    (∀ p : PairResult K.Geometry,
      (∃ s, (0, s) ∈ (calculate_single_route_comparison_core K p).stats) ↔
        p.google_route.isSome) := by
  constructor
  · intro pairs n
    rw [process_routes_core, stats_mem_loop]
    constructor
    · rintro ⟨j, p, hj, hn, hp⟩
      have hjn : j = n := by omega
      subst hjn
      exact ⟨p, hj, hp⟩
    · rintro ⟨p, hn, hp⟩
      exact ⟨n, p, hn, by omega, hp⟩
  · intro p
    rcases hg : p.google_route with _ | g
    · simp [calculate_single_route_comparison_core, hg]
    · simp [calculate_single_route_comparison_core, hg]

/-- C7: the sampler returns exactly the requested number of coordinates, each
with longitude and latitude inside the bbox on the respective axis, and a
degenerate axis yields the constant value on that axis rather than an error. -/
theorem sampler_count_and_bounds (min_lon min_lat max_lon max_lat : ℚ) (n : ℕ)
    (us vs : ℕ → ℚ)
    (hus : ∀ k, 0 ≤ us k ∧ us k < 1) (hvs : ∀ k, 0 ≤ vs k ∧ vs k < 1)
    (hlon : min_lon ≤ max_lon) (hlat : min_lat ≤ max_lat) :
    (generate_random_points_in_bbox (min_lon, min_lat, max_lon, max_lat) n us vs).length
        = n ∧
    (∀ p ∈ generate_random_points_in_bbox (min_lon, min_lat, max_lon, max_lat) n us vs,
      min_lon ≤ p.1 ∧ p.1 ≤ max_lon ∧ min_lat ≤ p.2 ∧ p.2 ≤ max_lat) ∧
    (min_lon = max_lon →
      ∀ p ∈ generate_random_points_in_bbox (min_lon, min_lat, max_lon, max_lat) n us vs,
        p.1 = min_lon) := by
  have hbounds :
      ∀ p ∈ generate_random_points_in_bbox (min_lon, min_lat, max_lon, max_lat) n us vs,
        min_lon ≤ p.1 ∧ p.1 ≤ max_lon ∧ min_lat ≤ p.2 ∧ p.2 ≤ max_lat := by
    intro p hp
    simp only [generate_random_points_in_bbox, List.mem_map, List.mem_range] at hp
    obtain ⟨k, hk, rfl⟩ := hp
    obtain ⟨hu0, hu1⟩ := hus k
    obtain ⟨hv0, hv1⟩ := hvs k
    refine ⟨?_, ?_, ?_, ?_⟩ <;> dsimp only <;> simp only [uniformDraw]
    · nlinarith [mul_nonneg (sub_nonneg.mpr hlon) hu0]
    · nlinarith [mul_nonneg (sub_nonneg.mpr hlon)
        (by linarith : (0 : ℚ) ≤ 1 - us k)]
    · nlinarith [mul_nonneg (sub_nonneg.mpr hlat) hv0]
    · nlinarith [mul_nonneg (sub_nonneg.mpr hlat)
        (by linarith : (0 : ℚ) ≤ 1 - vs k)]
  refine ⟨by simp [generate_random_points_in_bbox], hbounds, ?_⟩
  intro hdeg p hp
  have h := hbounds p hp
  have h1 := h.1
  have h2 := h.2.1
  rw [← hdeg] at h2
  exact le_antisymm h2 h1

/-- Witness for C7: the bbox (0, 0, 2, 4), three points and the constant
half draw. -/
theorem sampler_count_and_bounds_witness :
    ((generate_random_points_in_bbox (0, 0, 2, 4) 3
        (fun _ => 1 / 2) (fun _ => 1 / 2)).length = 3) ∧
    (∀ p ∈ generate_random_points_in_bbox (0, 0, 2, 4) 3
        (fun _ => 1 / 2) (fun _ => 1 / 2),
      (0 : ℚ) ≤ p.1 ∧ p.1 ≤ 2 ∧ (0 : ℚ) ≤ p.2 ∧ p.2 ≤ 4) ∧
    ((0 : ℚ) = 2 →
      ∀ p ∈ generate_random_points_in_bbox (0, 0, 2, 4) 3
          (fun _ => 1 / 2) (fun _ => 1 / 2),
        p.1 = 0) :=
  sampler_count_and_bounds 0 0 2 4 3 (fun _ => 1 / 2) (fun _ => 1 / 2)
    (fun k => ⟨by norm_num, by norm_num⟩) (fun k => ⟨by norm_num, by norm_num⟩)
    (by norm_num) (by norm_num)

/-- C8: every emitted record of the batch trace is a progress record whose
integer percentage is step * 100 / (N + 2) over the fixed total of N + 2
steps, the percentages are monotonically non-decreasing across the run and
bounded by 100, and a progress record immediately follows the pair-generation
step and every one of the N fetch steps. -/
theorem progress_trace_properties (n : ℕ) :
    ((process_routes_trace n).filterMap progressOf =
      (List.range (n + 3)).map (fun k => k * 100 / (n + 2))) ∧
    ((process_routes_trace n).filterMap progressOf).Pairwise (· ≤ ·) ∧
    (∀ p ∈ (process_routes_trace n).filterMap progressOf, p ≤ 100) ∧
    progressFollows (process_routes_trace n) = true := by
  refine ⟨trace_pcts n, ?_, ?_, ?_⟩
  · rw [trace_pcts, List.pairwise_map]
    exact (List.pairwise_lt_range _).imp
      (fun h => Nat.div_le_div_right (Nat.mul_le_mul_right _ (le_of_lt h)))
  · rw [trace_pcts]
    intro p hp
    obtain ⟨k, hk, rfl⟩ := List.mem_map.mp hp
    have hk' : k ≤ n + 2 := by
      have := List.mem_range.mp hk
      omega
    calc k * 100 / (n + 2) ≤ (n + 2) * 100 / (n + 2) :=
          Nat.div_le_div_right (Nat.mul_le_mul_right _ hk')
      _ = 100 := Nat.mul_div_cancel_left 100 (by omega)
  · show progressFollows
      (log_progress 0 (n + 2) "Initializing..."
        :: log_progress 1 (n + 2) "Generating random origin/destination pairs..."
        :: .generatePairs
        :: ((List.range n).flatMap (fetchBlock (n + 2))
            ++ [log_progress (n + 2) (n + 2) "Saving results..."])) = true
    obtain ⟨hf, hh⟩ := progressFollows_mid (n + 2)
      (log_progress (n + 2) (n + 2) "Saving results...") rfl (List.range n)
    rcases hr : (List.range n).flatMap (fetchBlock (n + 2))
        ++ [log_progress (n + 2) (n + 2) "Saving results..."] with _ | ⟨r, rest⟩
    · simp at hr
    · rw [hr] at hf hh
      have hrprog : isProgress r = true := hh
      simp only [progressFollows, log_progress, hrprog, Bool.true_and]
      exact hf

end Argus
